import Mathlib

/-!
Shallow embedding of the bbrot-opencl repository (src/bbrot.py and
src/mandel.py): the escape-time / orbit-accumulation compute pipeline.

Conventions of the embedding:
* Python floats carried as data (never arithmetically combined by the host
  code under verification) are modelled as rationals `ℚ`.
* numpy int32 arrays are modelled as `ℤ`- or `ℕ`-valued data; none of the
  verified host-side computations can overflow 32 bits on the inputs the
  claims are about, so no wrap-around modulus is inserted.
* The OpenCL device kernels (bbrot.cl / mandel.cl) are not part of src/;
  where a claim depends on their behaviour they are modelled from the spec
  (marked `Modelled from the spec:`), and everything host-side is translated
  directly from the Python source.
* Python code that can raise is modelled with `Except`/`Option`.
-/

namespace Bbrot

/-- `STEPS = 1024` (src/bbrot.py line 14). -/
def STEPS : ℕ := 1024

/-- `MAX_LOOPS = 10**4` (src/bbrot.py line 22): per-dispatch iteration cap. -/
def MAX_LOOPS : ℕ := 10 ^ 4

/-- `MAX_ITERS_CELLS = 256` (src/bbrot.py line 23). -/
def MAX_ITERS_CELLS : ℤ := 256

/-- `SAMPLES = 10**7` (src/bbrot.py line 25). -/
def SAMPLES : ℕ := 10 ^ 7

/-- `MIN_ITERS_SAMPLES = 1*10**6` (src/bbrot.py line 26). -/
def MIN_ITERS_SAMPLES : ℤ := 1 * 10 ^ 6

/-- `MAX_ITERS_SAMPLES = 5*10**6` (src/bbrot.py line 27). -/
def MAX_ITERS_SAMPLES : ℤ := 5 * 10 ^ 6

/-- `MAX_RENDER_BUF_MEM = 2*1024**3` (src/bbrot.py line 28). -/
def MAX_RENDER_BUF_MEM : ℕ := 2 * 1024 ^ 3

/-- `MAX_RENDER_BUFS = MAX_RENDER_BUF_MEM // (4 * STEPS * STEPS)`
(src/bbrot.py line 29). -/
def MAX_RENDER_BUFS : ℕ := MAX_RENDER_BUF_MEM / (4 * STEPS * STEPS)

/-- A grid cell index `(i, j)`. -/
abbrev Cell := ℕ × ℕ

/-- One record of the persisted seed file: `{'pointX': …, 'pointY': …,
'orbitLength': …}` (src/bbrot.py lines 146-153). -/
structure SeedRecord where
  pointX : ℚ
  pointY : ℚ
  orbitLength : ℤ
deriving DecidableEq

/-- The persisted object `dict(pointList=[…])` built by `save_seeds`
(src/bbrot.py line 146). The JSON text encoding itself is the standard
library's and is out of scope (spec §1, §6); the embedding works at the
level of the structured object. -/
structure SeedsFile where
  pointList : List SeedRecord
deriving DecidableEq

/-- `save_seeds(seeds, fname)` (src/bbrot.py lines 145-155), modelled as the
object it serializes: each triple `t` becomes a record with fields
`pointX = t[0]`, `pointY = t[1]`, `orbitLength = t[2]`. -/
def save_seeds (seeds : List (ℚ × ℚ × ℤ)) : SeedsFile :=
  { pointList := seeds.map (fun t => { pointX := t.1, pointY := t.2.1, orbitLength := t.2.2 }) }

/-- `load_seeds(fname)` (src/bbrot.py lines 157-162): rebuilds the list of
triples `(o['pointX'], o['pointY'], o['orbitLength'])` from the object. -/
def load_seeds (f : SeedsFile) : List (ℚ × ℚ × ℤ) :=
  f.pointList.map (fun o => (o.pointX, o.pointY, o.orbitLength))

/-- `sample_cells(ctx, cq, prog, x0, y0, cells)` (src/bbrot.py lines
119-132; identical in src/mandel.py lines 130-143). The random draws
(`np.random.rand`) and the device escape-time evaluation (`mandel_iters`)
are external inputs of the host logic, so they are passed in as the lists
`randX`, `randY` and `sampleIters`. Python raises `ZeroDivisionError` at
`per_cell = 1 + SAMPLES // len(cells)` when `cells` is empty, modelled by
the `Except.error` branch. -/
def sample_cells (cells : List Cell) (randX randY : List ℚ)
    (sampleIters : List ℤ) : Except String (List (ℚ × ℚ × ℤ)) :=
  if cells.isEmpty then
    Except.error "ZeroDivisionError"
  else
    let perCell : ℕ := 1 + SAMPLES / cells.length
    let samples : ℕ := cells.length * perCell
    let _ := samples
    let seeds := ((randX.zip randY).zip sampleIters).filterMap
      (fun p =>
        if MIN_ITERS_SAMPLES < p.2 ∧ p.2 < MAX_ITERS_SAMPLES then
          some (p.1.1, p.1.2, p.2)
        else none)
    Except.ok seeds

/-- A seed triple `(x, y, orbitLength)` as consumed by the render stage;
the host render code reads only `t[0]` and `t[1]`, the orbit length is
consumed by the device kernel. -/
abbrev Seed := ℚ × ℚ × ℕ

/-- An accumulation histogram, indexed by grid cell. -/
abbrev Hist := Cell → ℕ

/-- The fixed data of one `render_seeds_gen` run: the seed list
(src/bbrot.py line 164), and the device's orbit trace. `visit i t` —
Modelled from the spec: the grid cell that seed `i`'s orbit records at its
`t`-th iteration ("recording every visited grid cell it passes through",
spec §4.4); the actual trajectory arithmetic lives in bbrot.cl, which is
not under src/. -/
structure RunEnv where
  seeds : List Seed
  visit : ℕ → ℕ → Cell

/-- The host-visible mutable state of the scheduler: the per-seed `done`
flags and iteration counts, and the pool of accumulation buffers `buff`
(slot ↦ cell ↦ count), mirroring the arrays of src/bbrot.py lines 175-182. -/
structure TraceState where
  done : ℕ → ℤ
  iters : ℕ → ℕ
  buff : ℕ → Cell → ℕ

/-- The initial state: `iters`, `done` and `buff` all zero
(src/bbrot.py lines 180-182). -/
def initState : TraceState :=
  { done := fun _ => 0, iters := fun _ => 0, buff := fun _ _ => 0 }

/-- orbit length of seed `i` (third component of the seed triple). -/
def orbLen (env : RunEnv) (i : ℕ) : ℕ :=
  (env.seeds.getD i (0, 0, 0)).2.2

/-- Modelled from the spec: the iteration count at which the kernel marks
seed `i` "done" for checkpoint bound `cp` — "once the seed's own escape
iteration (orbitLength) is reached or the checkpoint bound is hit" (spec
§4.4); `cp = -1` is the "run to completion" checkpoint passed by
`render_seeds` (src/bbrot.py line 224). -/
def target (env : RunEnv) (cp : ℤ) (i : ℕ) : ℕ :=
  if cp < 0 then orbLen env i else min (orbLen env i) cp.toNat

/-- `nbufs = min(MAX_RENDER_BUFS, len(seeds))` (src/bbrot.py line 173). -/
def nbufs (env : RunEnv) : ℕ :=
  min MAX_RENDER_BUFS env.seeds.length

/-- `unfinished = [i for i in range(len(seeds)) if done[i] == 0]`
(src/bbrot.py lines 197-198). -/
def unfinished (env : RunEnv) (st : TraceState) : List ℕ :=
  (List.range env.seeds.length).filter (fun i => st.done i == 0)

/-- The seeds assigned to buffer slots in one dispatch round:
`n = min(nbufs, len(unfinished))` and `seed_list[buff_id] =
unfinished[buff_id]` for `buff_id < n` (src/bbrot.py lines 202-204), i.e.
the first `n` entries of `unfinished`, slot `b` receiving seed
`selection[b]`. -/
def selection (env : RunEnv) (st : TraceState) : List ℕ :=
  (unfinished env st).take (min (nbufs env) (unfinished env st).length)

/-- How many of the orbit iterations `t ∈ [p, pNew)` of seed `i` land in
cell `c`. -/
def visitCount (env : RunEnv) (i p pNew : ℕ) (c : Cell) : ℕ :=
  ((List.range' p (pNew - p)).filter (fun t => env.visit i t == c)).length

/-- Modelled from the spec: the effect of one `mandel_trace` kernel work
item (bbrot.cl, not under src/) on seed `i` accumulating into slot `slot`:
it advances the seed's iteration count by at most `MAX_LOOPS` toward the
checkpoint target, adds every visited cell of those iterations to the
slot's histogram, and writes the seed's `done` flag — 1 exactly when the
target is reached (spec §4.4, §4.1). It touches no other seed's state and
no other slot's buffer. -/
def dispatchOne (env : RunEnv) (cp : ℤ) (slot i : ℕ) (st : TraceState) : TraceState :=
  let p := st.iters i
  let pNew := min (p + MAX_LOOPS) (target env cp i)
  { done := fun j => if j = i then (if pNew = target env cp i then 1 else 0) else st.done j
    iters := fun j => if j = i then pNew else st.iters j
    buff := fun s c => if s = slot then st.buff s c + visitCount env i p pNew c else st.buff s c }

/-- One kernel launch over the slot/seed assignment `asg` (a list of
`(slot, seed)` pairs): the `n` work items of the dispatch at src/bbrot.py
lines 207-211, each acting on a distinct seed and slot. -/
def dispatch (env : RunEnv) (cp : ℤ) (asg : List (ℕ × ℕ)) (st : TraceState) : TraceState :=
  asg.foldl (fun s pr => dispatchOne env cp pr.1 pr.2 s) st

/-- One iteration of the `while True` scheduling loop body after the
emptiness check (src/bbrot.py lines 202-213): assign the selected seeds to
slots `0, 1, …` in order and launch the kernel. -/
def round (env : RunEnv) (cp : ℤ) (st : TraceState) : TraceState :=
  dispatch env cp (selection env st).enum st

/-- The `while True` loop of one checkpoint pass (src/bbrot.py lines
196-213), with an explicit fuel bound on the number of rounds (the Python
loop is unguarded; spec §9 flags the unbounded-loop risk). Returns the
final state and the number of kernel dispatches performed. -/
def runPass (env : RunEnv) (cp : ℤ) : ℕ → TraceState → TraceState × ℕ
  | 0, st => (st, 0)
  | fuel + 1, st =>
    if unfinished env st = [] then (st, 0)
    else
      let r := runPass env cp fuel (round env cp st)
      (r.1, r.2 + 1)

/-- `counts = np.sum(buff, axis=0)` (src/bbrot.py line 217): the merged
histogram, summing the slot buffers cell-wise. -/
def countsOf (env : RunEnv) (st : TraceState) : Hist :=
  fun c => ((List.range (nbufs env)).map (fun s => st.buff s c)).sum

/-- `done *= 0` (src/bbrot.py lines 220-221): reset the done flags between
checkpoints; the buffers and iteration state are kept. -/
def resetDone (st : TraceState) : TraceState :=
  { st with done := fun _ => 0 }

/-- The checkpoint loop of `render_seeds_gen` (src/bbrot.py lines
195-221) from a given state: for each checkpoint, run the pass, emit the
merged histogram together with the pass's dispatch count, reset the done
flags, continue. -/
def genFrom (env : RunEnv) (fuel : ℕ) : List ℤ → TraceState → List (Hist × ℕ)
  | [], _ => []
  | cp :: rest, st =>
    let r := runPass env cp fuel st
    (countsOf env r.1, r.2) :: genFrom env fuel rest (resetDone r.1)

/-- `render_seeds_gen(ctx, cq, prog, seeds, iter_checkpoints)`
(src/bbrot.py lines 164-221): the list of `(histogram, dispatch count)`
pairs yielded, one per checkpoint. -/
def render_seeds_gen (env : RunEnv) (cps : List ℤ) (fuel : ℕ) : List (Hist × ℕ) :=
  genFrom env fuel cps initState

/-- `render_seeds(ctx, cq, prog, seeds)` (src/bbrot.py lines 223-225):
the first yield of the generator run with the single checkpoint `-1`. -/
def render_seeds (env : RunEnv) (fuel : ℕ) : Option (Hist × ℕ) :=
  (render_seeds_gen env [(-1 : ℤ)] fuel).head?

/-- One host-visible action of `mandel_iters`: a kernel launch or the final
read-back of the per-point iteration counts. -/
inductive DevEvent where
  | dispatchKernel (n : ℕ)
  | readBack
deriving DecidableEq

/-- `nloops = math.ceil(max_iters / MAX_LOOPS)` (src/bbrot.py line 89).
`math.ceil` of the exact quotient: for the int32 iteration counts the
program uses, the float division is exact enough that Python's result is
the mathematical ceiling, which is what is embedded. -/
def mandel_iters_nloops (max_iters : ℕ) : ℕ :=
  Nat.ceil ((max_iters : ℚ) / (MAX_LOOPS : ℚ))

/-- The sequence of device interactions of bbrot's `mandel_iters`
(src/bbrot.py lines 88-98): `nloops` kernel launches, then one
`enqueue_copy` read-back of `iters`. -/
def mandel_iters_events (max_iters : ℕ) : List DevEvent :=
  ((List.range (mandel_iters_nloops max_iters)).map DevEvent.dispatchKernel)
    ++ [DevEvent.readBack]

/-- Number of kernel launches in a device-event trace. -/
def dispatchCount (evs : List DevEvent) : ℕ :=
  evs.countP (fun e =>
    match e with
    | DevEvent.dispatchKernel _ => true
    | DevEvent.readBack => false)

end Bbrot

namespace Mandel

/-- `MAX_RENDER_BUFS = 32` (src/mandel.py line 26). -/
def MAX_RENDER_BUFS : ℕ := 32

/-- `nloops = max(1, max_iters // MAX_LOOPS)` (src/mandel.py line 82):
floor division, clamped below by 1. -/
def mandel_iters_nloops (max_iters : ℕ) : ℕ :=
  max 1 (max_iters / Bbrot.MAX_LOOPS)

/-- The device interactions of mandel's `mandel_iters` (src/mandel.py lines
81-91): `nloops` kernel launches, then the read-back of `iters`. -/
def mandel_iters_events (max_iters : ℕ) : List Bbrot.DevEvent :=
  ((List.range (mandel_iters_nloops max_iters)).map Bbrot.DevEvent.dispatchKernel)
    ++ [Bbrot.DevEvent.readBack]

/-- `nbufs = min(MAX_RENDER_BUFS, len(seeds))` (src/mandel.py line 190). -/
def nbufs (env : Bbrot.RunEnv) : ℕ :=
  min MAX_RENDER_BUFS env.seeds.length

/-- One iteration of mandel's `while True` loop body (src/mandel.py lines
205-209): `for seed, buff_d in zip(unfinished, buffs_d)` launches one
work item per pair, seed `unfinished[k]` into buffer `k`, truncated by the
shorter list. The kernel has no checkpoint argument: each orbit runs to
its own completion, the `-1` ("no bound") target of the shared kernel
model. -/
def round (env : Bbrot.RunEnv) (st : Bbrot.TraceState) : Bbrot.TraceState :=
  ((Bbrot.unfinished env st).zip (List.range (nbufs env))).foldl
    (fun s pr => Bbrot.dispatchOne env (-1) pr.2 pr.1 s) st

/-- Mandel's `while True` loop (src/mandel.py lines 200-211), fuel-bounded
as in `Bbrot.runPass`; returns the final state and the number of dispatch
rounds. -/
def runPass (env : Bbrot.RunEnv) : ℕ → Bbrot.TraceState → Bbrot.TraceState × ℕ
  | 0, st => (st, 0)
  | fuel + 1, st =>
    if Bbrot.unfinished env st = [] then (st, 0)
    else
      let r := runPass env fuel (round env st)
      (r.1, r.2 + 1)

/-- `render_seeds(ctx, cq, prog, seeds)` (src/mandel.py lines 168-221).
After the loop, `dest = buffs[0]` indexes the buffer list: when
`nbufs = 0` (empty seed list) this raises `IndexError`, modelled as
`none`; otherwise the buffers are summed into `dest` and returned together
with the dispatch-round count. -/
def render_seeds (env : Bbrot.RunEnv) (fuel : ℕ) : Option (Bbrot.Hist × ℕ) :=
  let r := runPass env fuel Bbrot.initState
  if nbufs env = 0 then none
  else some (fun c => ((List.range (nbufs env)).map (fun s => r.1.buff s c)).sum, r.2)

end Mandel

/-- A host-visible pipeline action after the sampling stage: a console
report, writing the seed file, or writing an image file. -/
inductive PipeEvent where
  | report (msg : String)
  | saveSeedsFile
  | saveImageFile
deriving DecidableEq

namespace Bbrot

/-- The tail of `compute()` after `sample_cells` returns (src/bbrot.py
lines 246-259): report the seed count; if the seed list is empty, return
(no file written); otherwise write the seed file and report it. The second
component records a raised exception, `none` meaning a graceful finish. -/
def computeAfterSampling (seeds : List (ℚ × ℚ × ℤ)) : List PipeEvent × Option String :=
  if seeds.isEmpty then
    ([PipeEvent.report "seed count: 0"], none)
  else
    ([PipeEvent.report "seed count", PipeEvent.saveSeedsFile,
      PipeEvent.report "saved seeds"], none)

end Bbrot

namespace Mandel

/-- The tail of `main()` after `sample_cells` returns (src/mandel.py lines
270-285): report the seed count, write the seed file unconditionally, then
call `render_seeds`; if that raises (empty seed list), the run dies with
the seed file already on disk; otherwise the image is written. -/
def mainAfterSampling (env : Bbrot.RunEnv) (fuel : ℕ) : List PipeEvent × Option String :=
  let evs := [PipeEvent.report "seed count", PipeEvent.saveSeedsFile]
  match render_seeds env fuel with
  | none => (evs, some "IndexError")
  | some _ => (evs ++ [PipeEvent.saveImageFile], none)

end Mandel

namespace Bbrot

/-- `iters_maxed = np.int8(iters == max_iters)` (src/bbrot.py line 108):
the 0/1 indicator of a grid point being "maxed". An EscapeField of shape
`(STEPS, STEPS)` is modelled as a function on its index ranges. -/
def itersMaxed (iters : ℕ → ℕ → ℤ) (maxIters : ℤ) (i j : ℕ) : ℤ :=
  if iters i j = maxIters then 1 else 0

/-- `cell_corners_maxed` (src/bbrot.py lines 109-113): the stencil sum of
the four corner indicators of cell `(i, j)`; the four shifted slices of a
`(STEPS, STEPS)` array contribute entries `(i, j)`, `(i+1, j)`, `(i, j+1)`
and `(i+1, j+1)`, in the order written in the source. -/
def cellCornersMaxed (iters : ℕ → ℕ → ℤ) (maxIters : ℤ) (i j : ℕ) : ℤ :=
  itersMaxed iters maxIters i j + itersMaxed iters maxIters (i + 1) j
    + itersMaxed iters maxIters i (j + 1) + itersMaxed iters maxIters (i + 1) (j + 1)

/-- `frontier_cells(iters, max_iters)` (src/bbrot.py lines 102-117):
`cell_on_border = (cell_corners_maxed > 0) * (cell_corners_maxed < 4)`,
then `np.nonzero` listed in row-major order — for a `(STEPS, STEPS)` input
the cell array has shape `(STEPS-1, STEPS-1)`. -/
def frontier_cells (iters : ℕ → ℕ → ℤ) (maxIters : ℤ) : List Cell :=
  (List.range (STEPS - 1)).flatMap (fun i =>
    ((List.range (STEPS - 1)).filter (fun j =>
      decide (0 < cellCornersMaxed iters maxIters i j)
        && decide (cellCornersMaxed iters maxIters i j < 4))).map (fun j => (i, j)))

end Bbrot

namespace Mandel

/-- `deltas = [(0, 0), (0, 1), (1, 0), (1, 1)]` (src/mandel.py line 115). -/
def deltas : List (ℕ × ℕ) := [(0, 0), (0, 1), (1, 0), (1, 1)]

/-- `on_frontier(i, j)` (src/mandel.py lines 117-122): build the list of
corner "in-set" booleans and test `any(in_m) and not all(in_m)`. -/
def on_frontier (iters : ℕ → ℕ → ℤ) (maxIters : ℤ) (i j : ℕ) : Bool :=
  let in_m := deltas.map (fun d => decide (iters (i + d.1) (j + d.2) = maxIters))
  in_m.any id && !(in_m.all id)

/-- `iter_cells(iters, max_iters)` (src/mandel.py lines 114-128): the
nested comprehension over `i, j ∈ range(STEPS-1)` keeping the cells on the
frontier, in the same row-major order. -/
def iter_cells (iters : ℕ → ℕ → ℤ) (maxIters : ℤ) : List Bbrot.Cell :=
  (List.range (Bbrot.STEPS - 1)).flatMap (fun i =>
    ((List.range (Bbrot.STEPS - 1)).filter (fun j =>
      on_frontier iters maxIters i j)).map (fun j => (i, j)))

end Mandel

namespace Bbrot

/-- The per-frame differences `diff = counts - prev` computed by `animate`
(src/bbrot.py lines 292-300): `prev` starts as the zero histogram
(`prev is None` case) and becomes the previous checkpoint's counts. -/
def animateDiffs : List Hist → Hist → List (Cell → ℤ)
  | [], _ => []
  | h :: rest, prev => (fun c => (h c : ℤ) - (prev c : ℤ)) :: animateDiffs rest h

end Bbrot

section Helpers

/-- With an empty seed list the scheduler's unfinished-seed scan is empty. -/
lemma unfinished_nil_seeds (visit : ℕ → ℕ → Bbrot.Cell) (st : Bbrot.TraceState) :
    Bbrot.unfinished ⟨[], visit⟩ st = [] := by
  simp [Bbrot.unfinished]

/-- With an empty seed list a checkpoint pass exits at once: no dispatch. -/
lemma bbrot_runPass_nil (visit : ℕ → ℕ → Bbrot.Cell) (cp : ℤ) (fuel : ℕ)
    (st : Bbrot.TraceState) :
    Bbrot.runPass ⟨[], visit⟩ cp fuel st = (st, 0) := by
  cases fuel with
  | zero => rfl
  | succ n => simp [Bbrot.runPass, unfinished_nil_seeds]

/-- With an empty seed list the buffer pool has zero slots, so the merged
histogram is identically zero. -/
lemma bbrot_countsOf_nil (visit : ℕ → ℕ → Bbrot.Cell) (st : Bbrot.TraceState) :
    Bbrot.countsOf ⟨[], visit⟩ st = fun _ => 0 := by
  funext c
  simp [Bbrot.countsOf, Bbrot.nbufs]

/-- With an empty seed list every checkpoint yields the zero histogram and
zero dispatches. -/
lemma bbrot_genFrom_nil (visit : ℕ → ℕ → Bbrot.Cell) (fuel : ℕ) :
    ∀ (cps : List ℤ) (st : Bbrot.TraceState),
      Bbrot.genFrom ⟨[], visit⟩ fuel cps st
        = cps.map (fun _ => ((fun _ => 0 : Bbrot.Hist), 0))
  | [], _ => rfl
  | cp :: rest, st => by
    simp [Bbrot.genFrom, bbrot_runPass_nil, bbrot_countsOf_nil,
      bbrot_genFrom_nil visit fuel rest]

/-- src/mandel.py `render_seeds` on an empty seed list: the pool is empty
and `buffs[0]` raises. -/
lemma mandel_render_seeds_nil (visit : ℕ → ℕ → Bbrot.Cell) (fuel : ℕ) :
    Mandel.render_seeds ⟨[], visit⟩ fuel = none := by
  simp [Mandel.render_seeds, Mandel.nbufs]

/-- Counting kernel launches in an `n`-launch trace gives `n`. -/
lemma dispatchCount_launches (n : ℕ) :
    Bbrot.dispatchCount
      ((List.range n).map Bbrot.DevEvent.dispatchKernel ++ [Bbrot.DevEvent.readBack]) = n := by
  unfold Bbrot.dispatchCount
  rw [List.countP_append]
  have h1 : List.countP
      (fun e => match e with
        | Bbrot.DevEvent.dispatchKernel _ => true
        | Bbrot.DevEvent.readBack => false)
      ((List.range n).map Bbrot.DevEvent.dispatchKernel) = n := by
    rw [List.countP_eq_length.mpr, List.length_map, List.length_range]
    intro a ha
    obtain ⟨k, _, rfl⟩ := List.mem_map.mp ha
    rfl
  rw [h1]
  rfl

/-- The slot buffers only grow under one kernel work item. -/
lemma buff_le_dispatchOne (env : Bbrot.RunEnv) (cp : ℤ) (slot i : ℕ)
    (st : Bbrot.TraceState) (s : ℕ) (c : Bbrot.Cell) :
    st.buff s c ≤ (Bbrot.dispatchOne env cp slot i st).buff s c := by
  simp only [Bbrot.dispatchOne]
  split
  · exact Nat.le_add_right _ _
  · exact le_refl _

/-- The slot buffers only grow under a kernel launch. -/
lemma buff_le_dispatch (env : Bbrot.RunEnv) (cp : ℤ) (asg : List (ℕ × ℕ)) :
    ∀ (st : Bbrot.TraceState) (s : ℕ) (c : Bbrot.Cell),
      st.buff s c ≤ (Bbrot.dispatch env cp asg st).buff s c := by
  induction asg with
  | nil => intro st s c; exact le_refl _
  | cons pr rest ih =>
    intro st s c
    rw [Bbrot.dispatch, List.foldl_cons]
    have h1 := buff_le_dispatchOne env cp pr.1 pr.2 st s c
    have h2 := ih (Bbrot.dispatchOne env cp pr.1 pr.2 st) s c
    rw [Bbrot.dispatch] at h2
    exact le_trans h1 h2

/-- The slot buffers only grow across a dispatch round. -/
lemma buff_le_round (env : Bbrot.RunEnv) (cp : ℤ) (st : Bbrot.TraceState)
    (s : ℕ) (c : Bbrot.Cell) :
    st.buff s c ≤ (Bbrot.round env cp st).buff s c := by
  rw [Bbrot.round]
  exact buff_le_dispatch env cp _ st s c

/-- The slot buffers only grow across a whole checkpoint pass. -/
lemma buff_le_runPass (env : Bbrot.RunEnv) (cp : ℤ) :
    ∀ (fuel : ℕ) (st : Bbrot.TraceState) (s : ℕ) (c : Bbrot.Cell),
      st.buff s c ≤ (Bbrot.runPass env cp fuel st).1.buff s c := by
  intro fuel
  induction fuel with
  | zero => intro st s c; exact le_refl _
  | succ n ih =>
    intro st s c
    rw [Bbrot.runPass]
    split
    · exact le_refl _
    · exact le_trans (buff_le_round env cp st s c) (ih _ s c)

/-- Cell-wise monotonicity of the merged histogram in the buffers. -/
lemma countsOf_mono (env : Bbrot.RunEnv) {st st' : Bbrot.TraceState}
    (h : ∀ s c, st.buff s c ≤ st'.buff s c) (c : Bbrot.Cell) :
    Bbrot.countsOf env st c ≤ Bbrot.countsOf env st' c := by
  unfold Bbrot.countsOf
  exact List.sum_le_sum (fun s _ => h s c)

/-- The generator's outputs are chained by cell-wise `≤`, and its first
output dominates the merged histogram of the entry state. -/
lemma genFrom_chain (env : Bbrot.RunEnv) (fuel : ℕ) :
    ∀ (cps : List ℤ) (st : Bbrot.TraceState),
      List.Chain' (fun a b : Bbrot.Hist × ℕ => ∀ c, a.1 c ≤ b.1 c)
        (Bbrot.genFrom env fuel cps st)
      ∧ ∀ h0 ∈ (Bbrot.genFrom env fuel cps st).head?, ∀ c,
          Bbrot.countsOf env st c ≤ h0.1 c := by
  intro cps
  induction cps with
  | nil => intro st; exact ⟨List.chain'_nil, by simp [Bbrot.genFrom]⟩
  | cons cp rest ih =>
    intro st
    rw [Bbrot.genFrom]
    constructor
    · rw [List.chain'_cons']
      refine ⟨?_, (ih _).1⟩
      intro y hy c
      exact (ih (Bbrot.resetDone (Bbrot.runPass env cp fuel st).1)).2 y hy c
    · intro h0 hh0 c
      simp only [List.head?_cons, Option.mem_def, Option.some.injEq] at hh0
      subst hh0
      exact countsOf_mono env (fun s cc => buff_le_runPass env cp fuel st s cc) c

/-- Cell-wise non-negativity of the animate differences, given chained
histograms that dominate the starting `prev`. -/
lemma animateDiffs_nonneg :
    ∀ (l : List Bbrot.Hist) (prev : Bbrot.Hist),
      (∀ h0 ∈ l.head?, ∀ c, prev c ≤ h0 c)
      → List.Chain' (fun a b : Bbrot.Hist => ∀ c, a c ≤ b c) l
      → List.Forall (fun d => ∀ c, 0 ≤ d c) (Bbrot.animateDiffs l prev) := by
  intro l
  induction l with
  | nil => intro prev _ _; simp [Bbrot.animateDiffs]
  | cons h rest ih =>
    intro prev hprev hchain
    rw [Bbrot.animateDiffs, List.forall_cons]
    constructor
    · intro c
      have hc := hprev h (by simp) c
      have hcast : (prev c : ℤ) ≤ (h c : ℤ) := by exact_mod_cast hc
      show (0 : ℤ) ≤ (h c : ℤ) - (prev c : ℤ)
      omega
    · rw [List.chain'_cons'] at hchain
      exact ih h (fun h0 hh0 c => hchain.1 h0 hh0 c) hchain.2

/-- `zip` with the slot index list keeps exactly the first
`number-of-slots` seeds. -/
lemma map_fst_zip_take {α β : Type} :
    ∀ (l : List α) (l' : List β), (l.zip l').map Prod.fst = l.take l'.length
  | [], _ => by simp
  | a :: l, [] => by simp
  | a :: l, b :: l' => by simp [map_fst_zip_take l l']

/-- The unfinished-seed scan is strictly increasing (it filters
`range`). -/
lemma unfinished_sorted (env : Bbrot.RunEnv) (st : Bbrot.TraceState) :
    (Bbrot.unfinished env st).Sorted (· < ·) :=
  List.Pairwise.filter _ (List.pairwise_lt_range _)

/-- Seeds listed as unfinished have done flag 0. -/
lemma done_zero_of_mem_unfinished (env : Bbrot.RunEnv) (st : Bbrot.TraceState)
    {a : ℕ} (h : a ∈ Bbrot.unfinished env st) : st.done a = 0 := by
  have := (List.mem_filter.mp h).2
  simpa using this

/-- Selected seeds have done flag 0. -/
lemma done_of_mem_selection (env : Bbrot.RunEnv) (st : Bbrot.TraceState)
    {a : ℕ} (h : a ∈ Bbrot.selection env st) : st.done a = 0 :=
  done_zero_of_mem_unfinished env st (List.take_subset _ _ h)

/-- A seed with a set done flag is not selected. -/
lemma not_mem_selection_of_done (env : Bbrot.RunEnv) (st : Bbrot.TraceState)
    (i : ℕ) (h : st.done i ≠ 0) : i ∉ Bbrot.selection env st :=
  fun hmem => h (done_of_mem_selection env st hmem)

/-- Every selected seed index is below every unfinished index that was not
selected. -/
lemma selection_lowest (env : Bbrot.RunEnv) (st : Bbrot.TraceState) :
    ∀ a ∈ Bbrot.unfinished env st, a ∉ Bbrot.selection env st →
      ∀ b ∈ Bbrot.selection env st, b < a := by
  intro a ha hnot b hb
  have hpw : List.Pairwise (· < ·) (Bbrot.unfinished env st) :=
    unfinished_sorted env st
  rw [← List.take_append_drop
    (min (Bbrot.nbufs env) (Bbrot.unfinished env st).length)
    (Bbrot.unfinished env st), List.pairwise_append] at hpw
  have ha' : a ∈ (Bbrot.unfinished env st).drop
      (min (Bbrot.nbufs env) (Bbrot.unfinished env st).length) := by
    rcases List.mem_append.mp ((List.take_append_drop
        (min (Bbrot.nbufs env) (Bbrot.unfinished env st).length)
        (Bbrot.unfinished env st)).symm ▸ ha) with h | h
    · exact absurd h hnot
    · exact h
  exact hpw.2.2 b hb a ha'

/-- A work item targeting another seed leaves a seed's done flag alone. -/
lemma dispatchOne_done_other (env : Bbrot.RunEnv) (cp : ℤ) (slot i' i : ℕ)
    (st : Bbrot.TraceState) (h : i ≠ i') :
    (Bbrot.dispatchOne env cp slot i' st).done i = st.done i := by
  simp [Bbrot.dispatchOne, h]

/-- A kernel launch not targeting seed `i` leaves its done flag alone. -/
lemma dispatch_done_of_not_touched (env : Bbrot.RunEnv) (cp : ℤ) :
    ∀ (asg : List (ℕ × ℕ)) (st : Bbrot.TraceState) (i : ℕ),
      (∀ pr ∈ asg, pr.2 ≠ i) →
      (Bbrot.dispatch env cp asg st).done i = st.done i := by
  intro asg
  induction asg with
  | nil => intro st i _; rfl
  | cons pr rest ih =>
    intro st i hne
    rw [Bbrot.dispatch, List.foldl_cons]
    have h1 := ih (Bbrot.dispatchOne env cp pr.1 pr.2 st) i
      (fun q hq => hne q (List.mem_cons_of_mem _ hq))
    rw [Bbrot.dispatch] at h1
    rw [h1]
    exact dispatchOne_done_other env cp pr.1 pr.2 i st
      (fun hcontra => hne pr (List.mem_cons_self _ _) hcontra.symm)

/-- A round never clears a set done flag (only unfinished seeds are
dispatched). -/
lemma round_done_preserved (env : Bbrot.RunEnv) (cp : ℤ) (st : Bbrot.TraceState)
    (i : ℕ) (h : st.done i ≠ 0) :
    (Bbrot.round env cp st).done i = st.done i := by
  rw [Bbrot.round]
  apply dispatch_done_of_not_touched
  intro pr hpr heq
  have hmem : pr.2 ∈ Bbrot.selection env st := by
    rw [← List.enum_map_snd (Bbrot.selection env st)]
    exact List.mem_map_of_mem Prod.snd hpr
  exact h (heq ▸ done_of_mem_selection env st hmem)

/-- Once done in a checkpoint pass, a seed stays done. -/
lemma iterate_done_ne (env : Bbrot.RunEnv) (cp : ℤ) (st : Bbrot.TraceState)
    (i : ℕ) (h : st.done i ≠ 0) :
    ∀ m, ((Bbrot.round env cp)^[m] st).done i ≠ 0 := by
  intro m
  induction m with
  | zero => exact h
  | succ k ih =>
    rw [Function.iterate_succ_apply', round_done_preserved env cp _ i ih]
    exact ih

end Helpers

section FrontierHelpers

/-- Four corner classifications: `any and not all` coincides with the
corner-indicator sum lying strictly between 0 and 4. The sum is arranged
as in `cellCornersMaxed`: `(i,j) + (i+1,j) + (i,j+1) + (i+1,j+1)` while
the corner list is in `deltas` order `(i,j), (i,j+1), (i+1,j), (i+1,j+1)`. -/
lemma corner_pred (p q r s : Prop) [Decidable p] [Decidable q] [Decidable r]
    [Decidable s] :
    (([decide p, decide q, decide r, decide s].any id)
        && !([decide p, decide q, decide r, decide s].all id))
      = (decide (0 < ((if p then (1 : ℤ) else 0) + (if r then 1 else 0)
            + (if q then 1 else 0) + (if s then 1 else 0)))
        && decide (((if p then (1 : ℤ) else 0) + (if r then 1 else 0)
            + (if q then 1 else 0) + (if s then 1 else 0)) < 4)) := by
  by_cases hp : p <;> by_cases hq : q <;> by_cases hr : r <;> by_cases hs : s <;>
    simp [hp, hq, hr, hs]

/-- The two frontier predicates agree pointwise. -/
lemma on_frontier_eq_stencil (iters : ℕ → ℕ → ℤ) (m : ℤ) (i j : ℕ) :
    Mandel.on_frontier iters m i j
      = (decide (0 < Bbrot.cellCornersMaxed iters m i j)
        && decide (Bbrot.cellCornersMaxed iters m i j < 4)) := by
  have h := corner_pred (iters i j = m) (iters i (j + 1) = m)
    (iters (i + 1) j = m) (iters (i + 1) (j + 1) = m)
  simp only [Mandel.on_frontier, Mandel.deltas, List.map_cons, List.map_nil,
    Nat.add_zero, Bbrot.cellCornersMaxed, Bbrot.itersMaxed]
  simpa [Nat.add_zero] using h

end FrontierHelpers

/-- C5: for every `STEPS×STEPS` integer escape field and horizon, the
vectorized stencil extractor (`frontier_cells`, src/bbrot.py) and the
nested-scan extractor (`iter_cells`, src/mandel.py) return the same cell
list; a cell is listed iff its four-corner maxed sum is strictly between
0 and 4; and the result depends only on the pointwise maxed
classification. -/
theorem frontier_iter_cells_equiv (iters : ℕ → ℕ → ℤ) (m : ℤ) :
    Bbrot.frontier_cells iters m = Mandel.iter_cells iters m
    ∧ (∀ i j : ℕ,
        ((i, j) ∈ Bbrot.frontier_cells iters m
          ↔ i < Bbrot.STEPS - 1 ∧ j < Bbrot.STEPS - 1
            ∧ 0 < Bbrot.cellCornersMaxed iters m i j
            ∧ Bbrot.cellCornersMaxed iters m i j < 4))
    ∧ (∀ (iters2 : ℕ → ℕ → ℤ) (m2 : ℤ),
        (∀ i j, (iters i j = m ↔ iters2 i j = m2))
        → Bbrot.frontier_cells iters m = Bbrot.frontier_cells iters2 m2) := by
  refine ⟨?_, ?_, ?_⟩
  · unfold Bbrot.frontier_cells Mandel.iter_cells
    apply List.flatMap_congr
    intro i _
    apply congrArg (List.map _)
    apply List.filter_congr
    intro j _
    exact (on_frontier_eq_stencil iters m i j).symm
  · intro i j
    simp only [Bbrot.frontier_cells, List.mem_flatMap, List.mem_map,
      List.mem_filter, List.mem_range, Bool.and_eq_true, decide_eq_true_eq]
    constructor
    · rintro ⟨a, ha, b, ⟨⟨hb, h0, h4⟩, hab⟩⟩
      obtain ⟨rfl, rfl⟩ := Prod.mk.injEq .. ▸ hab
      exact ⟨ha, hb, h0, h4⟩
    · rintro ⟨hi, hj, h0, h4⟩
      exact ⟨i, hi, j, ⟨⟨hj, h0, h4⟩, rfl⟩⟩
  · intro iters2 m2 h
    unfold Bbrot.frontier_cells
    apply List.flatMap_congr
    intro i _
    apply congrArg (List.map _)
    apply List.filter_congr
    intro j _
    have e : ∀ a b, Bbrot.itersMaxed iters m a b = Bbrot.itersMaxed iters2 m2 a b := by
      intro a b
      unfold Bbrot.itersMaxed
      exact if_congr (h a b) rfl rfl
    simp only [Bbrot.cellCornersMaxed, e]

/-- Witness for C5's maxed-classification invariance at two concrete
fields whose maxed patterns coincide. -/
theorem frontier_iter_cells_equiv_witness :
    (∀ i j : ℕ, ((fun _ _ => (0 : ℤ)) i j = 0 ↔ (fun _ _ => (5 : ℤ)) i j = 5))
    ∧ Bbrot.frontier_cells (fun _ _ => (0 : ℤ)) 0
      = Bbrot.frontier_cells (fun _ _ => (5 : ℤ)) 5 :=
  ⟨fun _ _ => by simp,
    (frontier_iter_cells_equiv (fun _ _ => (0 : ℤ)) 0).2.2 (fun _ _ => (5 : ℤ)) 5
      (fun _ _ => by simp)⟩

/-- C8: saving a list of seed triples and reloading the persisted object
returns a list of the same length with identical `(pointX, pointY,
orbitLength)` triples. -/
theorem save_load_roundtrip (seeds : List (ℚ × ℚ × ℤ)) :
    Bbrot.load_seeds (Bbrot.save_seeds seeds) = seeds
    ∧ (Bbrot.load_seeds (Bbrot.save_seeds seeds)).length = seeds.length := by
  have h : Bbrot.load_seeds (Bbrot.save_seeds seeds) = seeds := by
    rw [Bbrot.load_seeds, Bbrot.save_seeds, List.map_map]
    have hfun : ((fun o : Bbrot.SeedRecord => (o.pointX, o.pointY, o.orbitLength))
        ∘ (fun t : ℚ × ℚ × ℤ => Bbrot.SeedRecord.mk t.1 t.2.1 t.2.2)) = id :=
      funext fun t => rfl
    rw [hfun, List.map_id]
  exact ⟨h, by rw [h]⟩

/-- C4 counterexample: on an empty frontier-cell list, `sample_cells`
raises `ZeroDivisionError` (computing `1 + SAMPLES // len(cells)`) instead
of stopping gracefully. -/
theorem sample_cells_zero_cells_counterexample :
    Bbrot.sample_cells [] [] [] [] = Except.error "ZeroDivisionError" := rfl

/-- C4 amended: a run with zero frontier cells is not guarded: for every
sampling input, `sample_cells` on the empty cell list raises
`ZeroDivisionError` at the per-cell budget division. -/
theorem sample_cells_zero_cells (randX randY : List ℚ) (sampleIters : List ℤ) :
    Bbrot.sample_cells [] randX randY sampleIters
      = Except.error "ZeroDivisionError" := rfl

/-- C6: every seed returned by `sample_cells` has an orbit length strictly
between `MIN_ITERS_SAMPLES` and `MAX_ITERS_SAMPLES`; in particular no
retained seed has escape count equal to the horizon `MAX_ITERS_SAMPLES`. -/
theorem sample_cells_window (cells : List Bbrot.Cell) (randX randY : List ℚ)
    (sampleIters : List ℤ) (seeds : List (ℚ × ℚ × ℤ))
    (h : Bbrot.sample_cells cells randX randY sampleIters = Except.ok seeds) :
    ∀ s ∈ seeds, Bbrot.MIN_ITERS_SAMPLES < s.2.2 ∧ s.2.2 < Bbrot.MAX_ITERS_SAMPLES := by
  intro s hs
  rw [Bbrot.sample_cells] at h
  split at h
  · exact absurd h (by simp)
  · rw [Except.ok.injEq] at h
    subst h
    simp only [List.mem_filterMap] at hs
    obtain ⟨p, _, hp⟩ := hs
    split_ifs at hp with hcond
    obtain ⟨h1, h2⟩ := hcond
    simp only [Option.some.injEq] at hp
    subst hp
    exact ⟨h1, h2⟩

/-- Witness for C6 at a one-cell, one-sample input. -/
theorem sample_cells_window_witness :
    Bbrot.sample_cells [(0, 0)] [0] [0] [2 * 10 ^ 6]
      = Except.ok [((0 : ℚ), (0 : ℚ), (2 * 10 ^ 6 : ℤ))]
    ∧ (Bbrot.MIN_ITERS_SAMPLES < ((0 : ℚ), (0 : ℚ), (2 * 10 ^ 6 : ℤ)).2.2
       ∧ ((0 : ℚ), (0 : ℚ), (2 * 10 ^ 6 : ℤ)).2.2 < Bbrot.MAX_ITERS_SAMPLES) := by
  have hok : Bbrot.sample_cells [(0, 0)] [0] [0] [2 * 10 ^ 6]
      = Except.ok [((0 : ℚ), (0 : ℚ), (2 * 10 ^ 6 : ℤ))] := by rfl
  exact ⟨hok,
    sample_cells_window [(0, 0)] [0] [0] [2 * 10 ^ 6] _ hok
      ((0 : ℚ), (0 : ℚ), (2 * 10 ^ 6 : ℤ)) (by simp)⟩

/-- C7 amended: bbrot's `mandel_iters` performs exactly
`ceil(max_iters / MAX_LOOPS)` kernel dispatches before the read-back;
mandel's variant instead performs `max(1, max_iters // MAX_LOOPS)`. -/
theorem mandel_iters_dispatch_count (m : ℕ) (_h : 1 ≤ m) :
    Bbrot.dispatchCount (Bbrot.mandel_iters_events m)
      = Nat.ceil ((m : ℚ) / (Bbrot.MAX_LOOPS : ℚ))
    ∧ (Bbrot.mandel_iters_events m).getLast? = some Bbrot.DevEvent.readBack
    ∧ Bbrot.dispatchCount (Mandel.mandel_iters_events m)
      = max 1 (m / Bbrot.MAX_LOOPS) := by
  refine ⟨?_, ?_, ?_⟩
  · exact dispatchCount_launches _
  · rw [Bbrot.mandel_iters_events, List.getLast?_concat]
  · exact dispatchCount_launches _

/-- C7 witness at `max_iters = 15000`. -/
theorem mandel_iters_dispatch_count_witness :
    1 ≤ 15000
    ∧ (Bbrot.dispatchCount (Bbrot.mandel_iters_events 15000)
        = Nat.ceil (((15000 : ℕ) : ℚ) / (Bbrot.MAX_LOOPS : ℚ))
      ∧ (Bbrot.mandel_iters_events 15000).getLast? = some Bbrot.DevEvent.readBack
      ∧ Bbrot.dispatchCount (Mandel.mandel_iters_events 15000)
        = max 1 (15000 / Bbrot.MAX_LOOPS)) :=
  ⟨by decide, mandel_iters_dispatch_count 15000 (by decide)⟩

/-- C7 counterexample: at `max_iters = 15000`, mandel's `mandel_iters`
performs `max(1, 15000 // 10000) = 1` dispatch, not
`ceil(15000 / 10000) = 2`. -/
theorem mandel_iters_floor_counterexample :
    ¬ (Bbrot.dispatchCount (Mandel.mandel_iters_events 15000)
        = Nat.ceil (((15000 : ℕ) : ℚ) / (Bbrot.MAX_LOOPS : ℚ))) := by
  have h1 : Bbrot.dispatchCount (Mandel.mandel_iters_events 15000) = 1 :=
    dispatchCount_launches 1
  have h2 : Nat.ceil (((15000 : ℕ) : ℚ) / (Bbrot.MAX_LOOPS : ℚ)) = 2 := by
    rw [show ((15000 : ℕ) : ℚ) / (Bbrot.MAX_LOOPS : ℚ) = 3 / 2 by
      norm_num [Bbrot.MAX_LOOPS]]
    rw [Nat.ceil_eq_iff (by norm_num)]
    norm_num
  omega

/-- C2 amended: with an empty seed list, bbrot's `render_seeds_gen` yields
for every checkpoint the all-zero histogram with zero dispatches, and
bbrot's `render_seeds` returns that zero histogram; mandel's
`render_seeds` instead fails (`buffs[0]` on the empty buffer pool). -/
theorem render_seeds_empty_input (visit : ℕ → ℕ → Bbrot.Cell) (cps : List ℤ)
    (fuel : ℕ) :
    Bbrot.render_seeds_gen ⟨[], visit⟩ cps fuel
      = cps.map (fun _ => ((fun _ => 0 : Bbrot.Hist), 0))
    ∧ Bbrot.render_seeds ⟨[], visit⟩ fuel = some ((fun _ => 0 : Bbrot.Hist), 0)
    ∧ Mandel.render_seeds ⟨[], visit⟩ fuel = none := by
  refine ⟨bbrot_genFrom_nil visit fuel cps Bbrot.initState, ?_,
    mandel_render_seeds_nil visit fuel⟩
  simp [Bbrot.render_seeds, Bbrot.render_seeds_gen, bbrot_genFrom_nil]

/-- C2 counterexample: mandel's `render_seeds` on the empty seed list does
not return a histogram at all. -/
theorem render_seeds_empty_counterexample :
    Mandel.render_seeds ⟨[], fun _ _ => (0, 0)⟩ 1 = none :=
  mandel_render_seeds_nil _ 1

/-- C3 amended: on zero accepted seeds, bbrot's `compute` reports the count
and returns without writing any file; mandel's `main` has no guard: it
writes the (empty) seed file and then dies in `render_seeds`. -/
theorem zero_seeds_stop (visit : ℕ → ℕ → Bbrot.Cell) (fuel : ℕ) :
    Bbrot.computeAfterSampling [] = ([PipeEvent.report "seed count: 0"], none)
    ∧ PipeEvent.saveSeedsFile ∉ (Bbrot.computeAfterSampling ([] : List (ℚ × ℚ × ℤ))).1
    ∧ Mandel.mainAfterSampling ⟨[], visit⟩ fuel
      = ([PipeEvent.report "seed count", PipeEvent.saveSeedsFile], some "IndexError") := by
  refine ⟨rfl, by simp [Bbrot.computeAfterSampling], ?_⟩
  simp [Mandel.mainAfterSampling, mandel_render_seeds_nil]

/-- C3 counterexample: with zero accepted seeds mandel's pipeline still
writes the seed file and then raises, contradicting "no output file and
graceful stop". -/
theorem zero_seeds_stop_counterexample :
    PipeEvent.saveSeedsFile ∈ (Mandel.mainAfterSampling ⟨[], fun _ _ => (0, 0)⟩ 1).1
    ∧ (Mandel.mainAfterSampling ⟨[], fun _ _ => (0, 0)⟩ 1).2 = some "IndexError" := by
  constructor <;> simp [Mandel.mainAfterSampling, mandel_render_seeds_nil]

/-- C9: the buffer pool always has `N = min(MAX_RENDER_BUFS, |seeds|)`
slots; `N × STEPS² × 4` bytes stays within `MAX_RENDER_BUF_MEM` (for both
variants' pool caps), and no dispatch round ever uses more than `N`
slots. -/
theorem buffer_pool_budget (env : Bbrot.RunEnv) :
    Bbrot.nbufs env = min Bbrot.MAX_RENDER_BUFS env.seeds.length
    ∧ Bbrot.nbufs env * (Bbrot.STEPS * Bbrot.STEPS) * 4 ≤ Bbrot.MAX_RENDER_BUF_MEM
    ∧ Mandel.nbufs env * (Bbrot.STEPS * Bbrot.STEPS) * 4 ≤ Bbrot.MAX_RENDER_BUF_MEM
    ∧ ∀ st, (Bbrot.selection env st).length ≤ Bbrot.nbufs env := by
  refine ⟨rfl, ?_, ?_, ?_⟩
  · calc Bbrot.nbufs env * (Bbrot.STEPS * Bbrot.STEPS) * 4
        ≤ Bbrot.MAX_RENDER_BUFS * (Bbrot.STEPS * Bbrot.STEPS) * 4 :=
          Nat.mul_le_mul_right _ (Nat.mul_le_mul_right _ (min_le_left _ _))
      _ ≤ Bbrot.MAX_RENDER_BUF_MEM := by
          norm_num [Bbrot.MAX_RENDER_BUFS, Bbrot.MAX_RENDER_BUF_MEM, Bbrot.STEPS]
  · calc Mandel.nbufs env * (Bbrot.STEPS * Bbrot.STEPS) * 4
        ≤ Mandel.MAX_RENDER_BUFS * (Bbrot.STEPS * Bbrot.STEPS) * 4 :=
          Nat.mul_le_mul_right _ (Nat.mul_le_mul_right _ (min_le_left _ _))
      _ ≤ Bbrot.MAX_RENDER_BUF_MEM := by
          norm_num [Mandel.MAX_RENDER_BUFS, Bbrot.MAX_RENDER_BUF_MEM, Bbrot.STEPS]
  · intro st
    simp only [Bbrot.selection, List.length_take]
    omega

/-- C1: at every dispatch round of a checkpoint pass, the scheduler selects
exactly the `min(N, #unfinished)` lowest-indexed unfinished seeds, in
increasing index order (slot `b` receiving the `b`-th of them), mandel's
zip-based assignment picking the same seeds; a seed whose done flag is set
keeps it set at every later round of the pass and is never selected
again. -/
theorem scheduler_selection_order (env : Bbrot.RunEnv) (cp : ℤ)
    (st : Bbrot.TraceState) (k j : ℕ) (hkj : k < j) :
    (Bbrot.selection env ((Bbrot.round env cp)^[k] st)).length
      = min (Bbrot.nbufs env)
          (Bbrot.unfinished env ((Bbrot.round env cp)^[k] st)).length
    ∧ (Bbrot.selection env ((Bbrot.round env cp)^[k] st)).Sorted (· < ·)
    ∧ (∀ a ∈ Bbrot.selection env ((Bbrot.round env cp)^[k] st),
        ((Bbrot.round env cp)^[k] st).done a = 0)
    ∧ (∀ a ∈ Bbrot.unfinished env ((Bbrot.round env cp)^[k] st),
        a ∉ Bbrot.selection env ((Bbrot.round env cp)^[k] st) →
        ∀ b ∈ Bbrot.selection env ((Bbrot.round env cp)^[k] st), b < a)
    ∧ ((Bbrot.unfinished env ((Bbrot.round env cp)^[k] st)).zip
          (List.range (Mandel.nbufs env))).map Prod.fst
        = (Bbrot.unfinished env ((Bbrot.round env cp)^[k] st)).take
            (Mandel.nbufs env)
    ∧ (∀ i, ((Bbrot.round env cp)^[k] st).done i ≠ 0 →
        ((Bbrot.round env cp)^[j] st).done i ≠ 0
        ∧ i ∉ Bbrot.selection env ((Bbrot.round env cp)^[j] st)) := by
  refine ⟨?_, ?_, ?_, ?_, ?_, ?_⟩
  · simp only [Bbrot.selection, List.length_take]
    omega
  · exact List.Pairwise.sublist (List.take_sublist _ _)
      (unfinished_sorted env ((Bbrot.round env cp)^[k] st))
  · intro a ha
    exact done_of_mem_selection env _ ha
  · exact selection_lowest env _
  · rw [map_fst_zip_take, List.length_range]
  · intro i h
    have hiter : (Bbrot.round env cp)^[j] st
        = (Bbrot.round env cp)^[j - k] ((Bbrot.round env cp)^[k] st) := by
      rw [← Function.iterate_add_apply]
      congr 1
      omega
    rw [hiter]
    have hne := iterate_done_ne env cp _ i h (j - k)
    exact ⟨hne, not_mem_selection_of_done env _ i hne⟩

/-- Witness for C1 at a one-seed run, comparing round 0 with round 1. -/
theorem scheduler_selection_order_witness :
    (0 : ℕ) < 1
    ∧ ((Bbrot.selection ⟨[(0, 0, 3)], fun _ _ => (0, 0)⟩
          ((Bbrot.round ⟨[(0, 0, 3)], fun _ _ => (0, 0)⟩ (-1))^[0] Bbrot.initState)).length
        = min (Bbrot.nbufs ⟨[(0, 0, 3)], fun _ _ => (0, 0)⟩)
            (Bbrot.unfinished ⟨[(0, 0, 3)], fun _ _ => (0, 0)⟩
              ((Bbrot.round ⟨[(0, 0, 3)], fun _ _ => (0, 0)⟩ (-1))^[0] Bbrot.initState)).length
      ∧ (Bbrot.selection ⟨[(0, 0, 3)], fun _ _ => (0, 0)⟩
          ((Bbrot.round ⟨[(0, 0, 3)], fun _ _ => (0, 0)⟩ (-1))^[0] Bbrot.initState)).Sorted (· < ·)
      ∧ (∀ a ∈ Bbrot.selection ⟨[(0, 0, 3)], fun _ _ => (0, 0)⟩
            ((Bbrot.round ⟨[(0, 0, 3)], fun _ _ => (0, 0)⟩ (-1))^[0] Bbrot.initState),
          ((Bbrot.round ⟨[(0, 0, 3)], fun _ _ => (0, 0)⟩ (-1))^[0] Bbrot.initState).done a = 0)
      ∧ (∀ a ∈ Bbrot.unfinished ⟨[(0, 0, 3)], fun _ _ => (0, 0)⟩
            ((Bbrot.round ⟨[(0, 0, 3)], fun _ _ => (0, 0)⟩ (-1))^[0] Bbrot.initState),
          a ∉ Bbrot.selection ⟨[(0, 0, 3)], fun _ _ => (0, 0)⟩
              ((Bbrot.round ⟨[(0, 0, 3)], fun _ _ => (0, 0)⟩ (-1))^[0] Bbrot.initState) →
          ∀ b ∈ Bbrot.selection ⟨[(0, 0, 3)], fun _ _ => (0, 0)⟩
              ((Bbrot.round ⟨[(0, 0, 3)], fun _ _ => (0, 0)⟩ (-1))^[0] Bbrot.initState), b < a)
      ∧ ((Bbrot.unfinished ⟨[(0, 0, 3)], fun _ _ => (0, 0)⟩
            ((Bbrot.round ⟨[(0, 0, 3)], fun _ _ => (0, 0)⟩ (-1))^[0] Bbrot.initState)).zip
            (List.range (Mandel.nbufs ⟨[(0, 0, 3)], fun _ _ => (0, 0)⟩))).map Prod.fst
          = (Bbrot.unfinished ⟨[(0, 0, 3)], fun _ _ => (0, 0)⟩
              ((Bbrot.round ⟨[(0, 0, 3)], fun _ _ => (0, 0)⟩ (-1))^[0] Bbrot.initState)).take
              (Mandel.nbufs ⟨[(0, 0, 3)], fun _ _ => (0, 0)⟩)
      ∧ (∀ i, ((Bbrot.round ⟨[(0, 0, 3)], fun _ _ => (0, 0)⟩ (-1))^[0] Bbrot.initState).done i ≠ 0 →
          ((Bbrot.round ⟨[(0, 0, 3)], fun _ _ => (0, 0)⟩ (-1))^[1] Bbrot.initState).done i ≠ 0
          ∧ i ∉ Bbrot.selection ⟨[(0, 0, 3)], fun _ _ => (0, 0)⟩
              ((Bbrot.round ⟨[(0, 0, 3)], fun _ _ => (0, 0)⟩ (-1))^[1] Bbrot.initState))) :=
  ⟨Nat.zero_lt_one,
    scheduler_selection_order ⟨[(0, 0, 3)], fun _ _ => (0, 0)⟩ (-1)
      Bbrot.initState 0 1 Nat.zero_lt_one⟩

/-- C10: across an ascending checkpoint sequence the histograms yielded by
`render_seeds_gen` are element-wise non-decreasing (buffers are never
cleared between checkpoints, only the done flags are reset), so the
per-frame differences `counts - prev` computed by `animate` are
element-wise non-negative. -/
theorem render_checkpoints_monotone (env : Bbrot.RunEnv) (cps : List ℤ)
    (fuel : ℕ) :
    List.Chain' (fun a b : Bbrot.Hist × ℕ => ∀ c, a.1 c ≤ b.1 c)
      (Bbrot.render_seeds_gen env cps fuel)
    ∧ List.Forall (fun d => ∀ c, 0 ≤ d c)
      (Bbrot.animateDiffs ((Bbrot.render_seeds_gen env cps fuel).map Prod.fst)
        (fun _ => 0)) := by
  have hchain := (genFrom_chain env fuel cps Bbrot.initState).1
  refine ⟨hchain, ?_⟩
  apply animateDiffs_nonneg
  · intro h0 _ c
    exact Nat.zero_le _
  · exact (List.chain'_map Prod.fst).mpr hchain
